import Mathlib

/-!
# Verification of the Autoware obstacle-stop decision pipeline

Shallow embedding of the decision logic of
`autoware_motion_velocity_obstacle_stop_module` (obstacle_stop_module.cpp)
and of the arc-length projection utilities of `autoware_path_generator`
(utils.cpp), together with proofs and refutations of the specification
claims about them.

Doubles of the C++ source are modelled as exact rationals (`ℚ`) for the
decision logic, and as reals (`ℝ`) for the 2-D geometry utilities whose
arc lengths involve square roots.  Geometric primitives that the spec
treats as black boxes (trajectory arc-length queries, polygon distance)
enter the embedded functions as explicit function parameters, so the
embedded control flow is exactly that of the source.
-/

namespace AutowareStop

/-- Labels of `autoware_perception_msgs::msg::ObjectClassification`. -/
def UNKNOWN : Nat := 0
def CAR : Nat := 1
def TRUCK : Nat := 2
def BUS : Nat := 3
def TRAILER : Nat := 4
def MOTORCYCLE : Nat := 5
def BICYCLE : Nat := 6
def PEDESTRIAN : Nat := 7

/-- `DBL_EPSILON = 2⁻⁵²`, the value of `std::numeric_limits<double>::epsilon()`. -/
def dblEps : ℚ := 1 / 2 ^ 52

/-- `std::clamp(v, lo, hi)` (C++ semantics: `v < lo ? lo : hi < v ? hi : v`). -/
def rclamp (v lo hi : ℚ) : ℚ := if v < lo then lo else if hi < v then hi else v

/-- Per-classification parameters returned by `StopPlanningParam::get_param`. -/
structure ClassParams where
  sudden_object_acc_threshold : ℚ
  sudden_object_dist_threshold : ℚ
  abandon_to_stop : Bool
  limit_min_acc : ℚ

/-- The fields of `StopPlanningParam` used by the embedded functions. -/
structure StopPlanningParam where
  stop_margin : ℚ
  terminal_stop_margin : ℚ
  min_behavior_stop_margin : ℚ
  max_negative_velocity : ℚ
  stop_margin_opposing_traffic : ℚ
  effective_deceleration_opposing_traffic : ℚ
  obstacle_velocity_threshold_enter_fixed_stop : ℚ
  obstacle_velocity_threshold_exit_fixed_stop : ℚ
  param_type : Nat → String
  params_of : Nat → ClassParams

/-- The fields of `CommonParam` used by the embedded functions. -/
structure CommonParam where
  limit_max_accel : ℚ
  limit_min_accel : ℚ

/-- The fields of `ObstacleFilteringParam` used by the embedded functions. -/
structure ObstacleFilteringParam where
  outside_stop_object_types : List Nat
  inside_stop_object_types : List Nat
  outside_pedestrian_deceleration : ℚ
  outside_bicycle_deceleration : ℚ
  outside_estimation_time_horizon : ℚ
  max_lat_margin : ℚ
  stop_obstacle_hold_time_threshold : ℚ
  use_pointcloud : Bool

/-- `StopObstacle` (obstacle_stop_module.hpp).  The geometric fields
(`pose`, `shape`, `collision_point`) are consumed only by black-box
geometry primitives; where a claim needs a value derived from them the
embedded function takes that value as an explicit parameter. -/
structure StopObstacle where
  uuid : Nat
  stamp : ℚ
  label : Nat
  velocity : ℚ
  dist_to_collide_on_decimated_traj : ℚ
  braking_dist : Option ℚ
deriving DecidableEq, Repr

/-- The combined distance used by the per-label reduction:
`dist_to_collide_on_decimated_traj + braking_dist.value_or(0.0)`. -/
def StopObstacle.combinedDist (o : StopObstacle) : ℚ :=
  o.dist_to_collide_on_decimated_traj + o.braking_dist.getD 0

/-! ## `calc_estimation_time` (obstacle_stop_module.cpp, lines 60-92)

`std::hypot(twist.linear.x, twist.linear.y)` is a black-box norm; the
embedded function takes the resulting speed as the parameter `speed`.
The first classification label is read with `classification.at(0)`,
which throws `std::out_of_range` on an empty vector; the embedding
returns `Except.error` in that case. -/

/-- The inner lambda `equivalent_estimation_time` of `calc_estimation_time`:
`none` stands for the `+∞` returned when `deceleration <= epsilon`. -/
def equivalent_estimation_time (speed decel : ℚ) : Option ℚ :=
  if decel ≤ dblEps then none else some (speed * (1 / 2) / decel)

/-- `std::clamp` applied to the possibly-infinite estimation time:
`clamp(+∞, lo, hi) = hi` since `hi < +∞` always holds. -/
def clampEstimationTime (v : Option ℚ) (lo hi : ℚ) : ℚ :=
  match v with
  | none => hi
  | some x => rclamp x lo hi

/-- `calc_estimation_time(predicted_object, obstacle_filtering_param)`.
`classification` is the list of classification labels of the object and
`speed` its planar speed `hypot(vx, vy)`. -/
def calc_estimation_time (classification : List Nat) (speed : ℚ)
    (p : ObstacleFilteringParam) : Except String ℚ :=
  match classification.head? with
  | none => Except.error "vector::at: classification index 0 out of range"
  | some objLabel =>
    if objLabel ∉ p.outside_stop_object_types then Except.ok 0
    else if objLabel = PEDESTRIAN then
      Except.ok (clampEstimationTime
        (equivalent_estimation_time speed p.outside_pedestrian_deceleration) 0
        p.outside_estimation_time_horizon)
    else if objLabel = BICYCLE then
      Except.ok (clampEstimationTime
        (equivalent_estimation_time speed p.outside_bicycle_deceleration) 0
        p.outside_estimation_time_horizon)
    else Except.ok p.outside_estimation_time_horizon

/-! ## `ObstacleStopModule::init` configuration check (lines 207-222) -/

/-- The startup configuration check of `ObstacleStopModule::init`:
`if (mask_lat_margin < obstacle_filtering_param_.max_lat_margin) throw
std::invalid_argument(...)`. -/
def init_config_check (mask_lat_margin max_lat_margin : ℚ) : Except String Unit :=
  if mask_lat_margin < max_lat_margin then
    Except.error "point-cloud mask narrower than stop margin"
  else Except.ok ()

/-! ## `is_obstacle_velocity_requiring_fixed_stop` (lines 712-735) -/

/-- `utils::get_obstacle_from_uuid`: first previous stop obstacle with the
given uuid. -/
def get_obstacle_from_uuid (obstacles : List StopObstacle) (uuid : Nat) :
    Option StopObstacle :=
  obstacles.find? (fun o => o.uuid = uuid)

/-- `ObstacleStopModule::is_obstacle_velocity_requiring_fixed_stop`.
`lonVel` is `object->get_lon_vel_relative_to_traj(traj_points)` (a
black-box trajectory-relative velocity). -/
def is_obstacle_velocity_requiring_fixed_stop (prev_stop_obstacles : List StopObstacle)
    (uuid : Nat) (lonVel : ℚ) (sp : StopPlanningParam) : Bool :=
  let stop_obstacle_opt := get_obstacle_from_uuid prev_stop_obstacles uuid
  let is_prev_object_requires_fixed_stop :=
    stop_obstacle_opt.isSome ∧ (stop_obstacle_opt.bind StopObstacle.braking_dist).isNone
  if is_prev_object_requires_fixed_stop then
    if sp.obstacle_velocity_threshold_exit_fixed_stop < lonVel then false
    else true
  else if lonVel < sp.obstacle_velocity_threshold_enter_fixed_stop then true
  else false

/-- The per-cycle transition of the fixed-stop classification: the next
cycle's "is recorded as a fixed stop" state is the value returned by
`is_obstacle_velocity_requiring_fixed_stop` this cycle (a fixed-stop
`StopObstacle` is emitted without `braking_dist`, lines 681-691). -/
def fixedStopStep (sp : StopPlanningParam) (prevFixed : Bool) (lonVel : ℚ) : Bool :=
  if prevFixed then
    if sp.obstacle_velocity_threshold_exit_fixed_stop < lonVel then false else true
  else if lonVel < sp.obstacle_velocity_threshold_enter_fixed_stop then true
  else false

/-- The fixed-stop classification after observing a sequence of relative
velocities, starting from classification state `b`. -/
def fixedStopIter (sp : StopPlanningParam) (b : Bool) : List ℚ → Bool
  | [] => b
  | v :: vs => fixedStopIter sp (fixedStopStep sp b v) vs

/-! ## `get_closest_stop_obstacles` (lines 1351-1369) -/

/-- One step of `get_closest_stop_obstacles`: `std::find_if` looks for the
first candidate with the same classification label; if none is found the
obstacle is appended, otherwise the found candidate is overwritten when
the new obstacle's `dist_to_collide_on_decimated_traj +
braking_dist.value_or(0.0)` is strictly smaller. -/
def gcsInsert (o : StopObstacle) : List StopObstacle → List StopObstacle
  | [] => [o]
  | c :: rest =>
    if c.label = o.label then
      (if o.combinedDist < c.combinedDist then o else c) :: rest
    else c :: gcsInsert o rest

/-- `ObstacleStopModule::get_closest_stop_obstacles`. -/
def get_closest_stop_obstacles (stop_obstacles : List StopObstacle) :
    List StopObstacle :=
  stop_obstacles.foldl (fun candidates o => gcsInsert o candidates) []

/-! ## The determined-stop selection loop of `plan_stop` (lines 831-868)

Per-cycle quantities that the source computes from the fixed cycle state
(`calc_desired_stop_margin` and `calc_candidate_zero_vel_dist` applied to
each obstacle) enter as the per-obstacle functions `marginOf` and `czvd`.
The accumulator holds `(determined_zero_vel_dist, determined_stop_obstacle,
determined_desired_stop_margin)`. -/

def plan_stop_loop (czvd : StopObstacle → Option ℚ) (marginOf : StopObstacle → ℚ) :
    List StopObstacle → Option (ℚ × StopObstacle × ℚ) → Option (ℚ × StopObstacle × ℚ)
  | [], det => det
  | o :: rest, det =>
    match czvd o with
    | none => plan_stop_loop czvd marginOf rest det
    | some c =>
      match det with
      | none => plan_stop_loop czvd marginOf rest (some (c, o, marginOf o))
      | some (cDet, oDet, mDet) =>
        -- mirrors source lines 853-864, including the doubled
        -- `stop_obstacle.dist_to_collide_on_decimated_traj` term of the
        -- same-label comparison (lines 857-858)
        if (o.label = oDet.label ∧
              o.dist_to_collide_on_decimated_traj +
                  o.dist_to_collide_on_decimated_traj >
                oDet.dist_to_collide_on_decimated_traj + oDet.braking_dist.getD 0) ∨
            (¬ o.label = oDet.label ∧ c > cDet) then
          plan_stop_loop czvd marginOf rest (some (cDet, oDet, mDet))
        else
          plan_stop_loop czvd marginOf rest (some (c, o, marginOf o))

/-- The selection part of `ObstacleStopModule::plan_stop`: reduce to the
closest obstacle per classification label, then run the determination
loop with an empty accumulator. -/
def plan_stop_select (czvd : StopObstacle → Option ℚ) (marginOf : StopObstacle → ℚ)
    (stop_obstacles : List StopObstacle) : Option (ℚ × StopObstacle × ℚ) :=
  plan_stop_loop czvd marginOf (get_closest_stop_obstacles stop_obstacles) none

/-! ## `PathLengthBuffer` and the tail of `plan_stop` (lines 884-911) -/

/-- Modelled from the spec: the `PathLengthBuffer` class (its source file
is not part of the provided sources; only its construction in `init` and
its use in `plan_stop` are).  Per §5/§4.5 it is a path-length-indexed
debounce buffer applying minimum on/off durations before a stop may
appear or disappear.  `items` pairs each buffered stop point with the
time it entered the buffer; an item is active once `min_on_duration` has
elapsed since then. -/
structure PathLengthBuffer (P : Type) where
  update_distance_th : ℚ
  min_off_duration : ℚ
  min_on_duration : ℚ
  items : List (P × ℚ)

/-- Modelled from the spec: `PathLengthBuffer::update_buffer`.  A new stop
point opens a fresh buffer entry unless an entry already exists within
`update_distance_th` of its path length; an absent stop point leaves the
pending entries to age (the off-duration machinery is not exercised by
the claims). -/
def update_buffer {P : Type} (buf : PathLengthBuffer P) (stop_point : Option P)
    (lenOf : P → ℚ) (now : ℚ) : PathLengthBuffer P :=
  match stop_point with
  | none => buf
  | some pt =>
    if buf.items.any (fun it => |lenOf it.1 - lenOf pt| ≤ buf.update_distance_th) then buf
    else { buf with items := buf.items ++ [(pt, now)] }

/-- Modelled from the spec: `PathLengthBuffer::get_nearest_active_item`
returns the buffered stop point with the smallest path length among the
entries whose on-duration has elapsed, if any. -/
def get_nearest_active_item {P : Type} (buf : PathLengthBuffer P) (lenOf : P → ℚ)
    (now : ℚ) : Option P :=
  (buf.items.filter (fun it => buf.min_on_duration ≤ now - it.2)).foldl
    (fun best it =>
      match best with
      | none => some it.1
      | some b => if lenOf it.1 < lenOf b then some it.1 else some b)
    none

/-- The tail of `ObstacleStopModule::plan_stop` after the stop point has
been computed (lines 887-911): if the determined obstacle's velocity is
at least `max_negative_velocity` the stop point is returned directly;
otherwise the stop decision is fed into the path-length buffer and the
buffer's nearest active stop point (or none) is returned.  The second
component of the result is the buffer state after the call. -/
def plan_stop_finalize {P : Type} (sp : StopPlanningParam)
    (buf : PathLengthBuffer P) (lenOf : P → ℚ) (now : ℚ)
    (determined_velocity : ℚ) (stop_point : Option P) :
    Option P × PathLengthBuffer P :=
  if determined_velocity ≥ sp.max_negative_velocity then
    (stop_point, buf)
  else
    let buf' := update_buffer buf stop_point lenOf now
    (get_nearest_active_item buf' lenOf now, buf')

/-! ## `calc_desired_stop_margin`, default-margin part (lines 920-967) -/

/-- The coasting time `T_coast` of the coast-then-brake oncoming-traffic
model (lines 948-952), already clamped at zero by `std::max`. -/
def coast_time (sp : StopPlanningParam) (v_ego v_obs bumper_to_bumper_distance : ℚ) : ℚ :=
  let a_ego := sp.effective_deceleration_opposing_traffic
  let braking_distance := v_ego * v_ego / (2 * a_ego)
  let stopping_time := v_ego / a_ego
  let distance_obs_ego_braking := |v_obs * stopping_time|
  let ego_stop_margin := sp.stop_margin_opposing_traffic
  let rel_vel := v_ego - v_obs
  max ((bumper_to_bumper_distance - ego_stop_margin - braking_distance +
        distance_obs_ego_braking) / rel_vel) 0

/-- The `default_stop_margin` lambda of
`ObstacleStopModule::calc_desired_stop_margin` (lines 921-967).
`bumper_to_bumper_distance` is the obstacle's
`dist_to_collide_on_decimated_traj`; `ref_traj_length` is the arc length
of the reference trajectory. -/
def default_stop_margin (sp : StopPlanningParam) (v_ego v_obs : ℚ)
    (bumper_to_bumper_distance ref_traj_length dist_to_collide_on_ref_traj : ℚ) : ℚ :=
  if v_obs < sp.max_negative_velocity then
    let a_ego := sp.effective_deceleration_opposing_traffic
    let braking_distance := v_ego * v_ego / (2 * a_ego)
    let rel_vel := v_ego - v_obs
    if |rel_vel| ≤ 1 / 10 ^ 6 then sp.stop_margin
    else
      let T_coast := coast_time sp v_ego v_obs bumper_to_bumper_distance
      let stopping_distance := v_ego * T_coast + braking_distance
      bumper_to_bumper_distance - stopping_distance
  else if dist_to_collide_on_ref_traj > ref_traj_length then sp.terminal_stop_margin
  else sp.stop_margin

/-! ## `calc_candidate_zero_vel_dist` (lines 990-1034) -/

/-- `calc_minimum_distance_to_stop` (lines 50-58). -/
def calc_minimum_distance_to_stop (initial_vel max_acc min_acc : ℚ) : ℚ :=
  if initial_vel < 0 then -(initial_vel ^ 2) / 2 / max_acc
  else -(initial_vel ^ 2) / 2 / min_acc

/-- The `acceptable_stop_acc` lambda of `calc_candidate_zero_vel_dist`
(lines 997-1018): `none` is the abandon-to-stop outcome. -/
def acceptable_stop_acc (common : CommonParam) (sp : StopPlanningParam) (label : Nat)
    (v_ego candidate_zero_vel_dist : ℚ) : Option ℚ :=
  if sp.param_type label = "default" then some common.limit_min_accel
  else
    let distance_to_judge_suddenness :=
      min (calc_minimum_distance_to_stop v_ego common.limit_max_accel
            (sp.params_of label).sudden_object_acc_threshold)
        (sp.params_of label).sudden_object_dist_threshold
    if candidate_zero_vel_dist > distance_to_judge_suddenness then
      some common.limit_min_accel
    else if (sp.params_of label).abandon_to_stop then none
    else some (sp.params_of label).limit_min_acc

/-- `ObstacleStopModule::calc_candidate_zero_vel_dist`.  `ego_arc_length`
is `calcSignedArcLength(traj_points, 0, current pose)` (black-box
trajectory primitive); `v_ego` the current longitudinal velocity. -/
def calc_candidate_zero_vel_dist (suppress_sudden_stop : Bool) (common : CommonParam)
    (sp : StopPlanningParam) (label : Nat)
    (v_ego ego_arc_length dist_to_collide_on_ref_traj desired_stop_margin : ℚ) :
    Option ℚ :=
  let candidate := max 0 (dist_to_collide_on_ref_traj - desired_stop_margin)
  if suppress_sudden_stop then
    match acceptable_stop_acc common sp label v_ego candidate with
    | none => none
    | some acc =>
      let acceptable_stop_pos := ego_arc_length +
        calc_minimum_distance_to_stop v_ego common.limit_max_accel acc
      if acceptable_stop_pos > candidate then some acceptable_stop_pos
      else some candidate
  else some candidate

/-! ## The point-cloud history aging loop of
`filter_stop_obstacle_for_point_cloud` (lines 549-586)

The geometric quantities the loop derives from each entry's recorded
collision point are black-box trajectory primitives and enter as the
functions below; `corner_dist` is
`hypot(max_longitudinal_offset_m, vehicle_width_m / 2)`. -/

structure PcHistoryParams where
  odom_time : ℚ
  hold_time_threshold : ℚ
  max_lat_margin : ℚ
  corner_dist : ℚ
  dist_to_bumper : ℚ
  lat_offset_of : StopObstacle → ℚ
  precise_dist_of : StopObstacle → ℚ
  arc_len_of : StopObstacle → ℚ

/-- The loop state: the history vector, the iterator position inside it,
and the `past_stop_obstacles` accumulated so far. -/
structure PcLoopState where
  history : List StopObstacle
  idx : Nat
  past : List StopObstacle

/-- One iteration of the `for (auto itr = ...; itr != end();)` loop.  When
the iterator is at the end the state is final and returned unchanged.
The two lateral-margin `continue`s (source lines 567-569 and 574-576)
leave the iterator where it is, exactly as the source does. -/
def pc_history_step (P : PcHistoryParams) (s : PcLoopState) : PcLoopState :=
  match s.history.get? s.idx with
  | none => s
  | some e =>
    let elapsed_time := P.odom_time - e.stamp
    if elapsed_time ≥ P.hold_time_threshold then
      { s with history := s.history.eraseIdx s.idx }
    else
      let min_lat_dist_to_traj_poly := |P.lat_offset_of e| - P.corner_dist
      if min_lat_dist_to_traj_poly ≥ P.max_lat_margin then s
      else if P.precise_dist_of e ≥ P.max_lat_margin then s
      else
        { s with
          idx := s.idx + 1
          past := s.past ++
            [{ e with dist_to_collide_on_decimated_traj :=
                P.arc_len_of e - P.dist_to_bumper }] }

/-- The loop has run to completion when the iterator has reached the end
of the history vector. -/
def pc_history_done (s : PcLoopState) : Bool :=
  decide (s.history.length ≤ s.idx)

/-- `n` iterations of the history-aging loop. -/
def pc_history_iter (P : PcHistoryParams) (s : PcLoopState) : Nat → PcLoopState
  | 0 => s
  | n + 1 => pc_history_step P (pc_history_iter P s n)

/-! ## Concrete parameter instances used by witnesses and counterexamples -/

/-- Obstacle-filtering parameters with the reference defaults relevant to
the proofs: pedestrians and bicycles are outside stop types, the
pedestrian deceleration is non-positive. -/
def cexOFP : ObstacleFilteringParam where
  outside_stop_object_types := [PEDESTRIAN, BICYCLE]
  inside_stop_object_types := [UNKNOWN, CAR, TRUCK, BUS, TRAILER, MOTORCYCLE, BICYCLE, PEDESTRIAN]
  outside_pedestrian_deceleration := -1
  outside_bicycle_deceleration := 2
  outside_estimation_time_horizon := 3
  max_lat_margin := 1
  stop_obstacle_hold_time_threshold := 1
  use_pointcloud := false

/-- Stop-planning parameters: opposing-traffic stop margin (10) larger
than the plain stop margin (5), as in the reference configuration. -/
def cexSP : StopPlanningParam where
  stop_margin := 5
  terminal_stop_margin := 3
  min_behavior_stop_margin := 3/2
  max_negative_velocity := -4
  stop_margin_opposing_traffic := 10
  effective_deceleration_opposing_traffic := 4
  obstacle_velocity_threshold_enter_fixed_stop := 1
  obstacle_velocity_threshold_exit_fixed_stop := 2
  param_type := fun _ => "default"
  params_of := fun _ => ⟨-1, 5, false, -1⟩

/-- Stop-planning parameters with a non-default, abandoning
classification parameter set, for the C7 witness. -/
def cexSPabandon : StopPlanningParam :=
  { cexSP with
    param_type := fun _ => "custom"
    params_of := fun _ => ⟨-1, 3, true, -1/2⟩ }

/-- A fresh path-length buffer with a positive minimum on-duration. -/
def cexBuf : PathLengthBuffer ℚ := ⟨1, 1, 1/2, []⟩

/-- A point-cloud history entry recorded just now. -/
def cexEntry : StopObstacle := ⟨0, 0, 0, 0, 0, none⟩

/-- History-loop parameters for which `cexEntry` is within the hold time
(elapsed 0 < 1) but laterally out of margin (rough distance 9 ≥ 2). -/
def cexPcParams : PcHistoryParams where
  odom_time := 0
  hold_time_threshold := 1
  max_lat_margin := 2
  corner_dist := 1
  dist_to_bumper := 0
  lat_offset_of := fun _ => 10
  precise_dist_of := fun _ => 10
  arc_len_of := fun _ => 0

/-- The loop state at entry: one history entry, iterator at the start. -/
def cexPcState : PcLoopState := ⟨[cexEntry], 0, []⟩

/-- `e` requires the nearest stop among the obstacles of `obs` sharing
its classification label, measured by combined
distance-to-collision + braking distance. -/
def minCombinedFor (e : StopObstacle) (obs : List StopObstacle) : Prop :=
  ∀ o ∈ obs, o.label = e.label → e.combinedDist ≤ o.combinedDist

/-- A fixed-stop candidate at combined distance 10. -/
def cexObsA : StopObstacle := ⟨1, 0, CAR, 0, 10, none⟩

/-- A same-label RSS candidate at combined distance 4 + 10 = 14. -/
def cexObsB : StopObstacle := ⟨2, 0, CAR, 0, 4, some 10⟩

/-- Per-obstacle candidate stop distance used by the C1 witness. -/
def cexCzvd : StopObstacle → Option ℚ :=
  fun o => some o.dist_to_collide_on_decimated_traj

/-- Per-obstacle desired stop margin used by the C1 witness. -/
def cexMarginOf : StopObstacle → ℚ := fun _ => 0

end AutowareStop

namespace PathGen

/-!
## Arc-length projection utilities of `autoware_path_generator` (utils.cpp)

2-D points are pairs of reals.  The lanelet2 geometry primitives used by
the source (`lanelet::geometry::length`, `interpolatedPointAtDistance`,
`toArcCoordinates`) are embedded below following their lanelet2
semantics: polyline length is the sum of segment lengths,
`interpolatedPointAtDistance` walks segments and interpolates (negative
distances measure from the end, overrun returns the last point), and
`toArcCoordinates` returns the arc length of the closest clamped
projection of the point onto the polyline (first strictly closer segment
wins).  Only the `.length` component of the arc coordinates is used by
the source, so only it is embedded.
-/

/-- A planar point. -/
abbrev Pt := ℝ × ℝ

/-- Component-wise subtraction. -/
def vsub (a b : Pt) : Pt := (a.1 - b.1, a.2 - b.2)

/-- Dot product. -/
def dotp (a b : Pt) : ℝ := a.1 * b.1 + a.2 * b.2

/-- Euclidean length of the segment from `a` to `b`. -/
noncomputable def segLen (a b : Pt) : ℝ :=
  Real.sqrt ((b.1 - a.1) ^ 2 + (b.2 - a.2) ^ 2)

/-- `lanelet::geometry::length`: total length of a polyline. -/
noncomputable def polyLength : List Pt → ℝ
  | a :: b :: rest => segLen a b + polyLength (b :: rest)
  | _ => 0

/-- Walk of `interpolatedPointAtDistance` over the segments for a
non-negative distance: interpolate inside the first segment containing
the distance, return the last point on overrun. -/
noncomputable def ipadGo : List Pt → ℝ → Pt
  | [], _ => (0, 0)
  | [p], _ => p
  | a :: b :: rest, d =>
    if d ≤ segLen a b then
      (a.1 + d / segLen a b * (b.1 - a.1), a.2 + d / segLen a b * (b.2 - a.2))
    else ipadGo (b :: rest) (d - segLen a b)

/-- `lanelet::geometry::interpolatedPointAtDistance`; a negative distance
is measured backwards from the end of the polyline. -/
noncomputable def interpolatedPointAtDistance (ls : List Pt) (d : ℝ) : Pt :=
  if d < 0 then ipadGo ls.reverse (-d) else ipadGo ls d

/-- Fold of `toArcCoordinates` over the segments: `cum` is the polyline
length before the current segment, `best` the closest projection found
so far as `(distance, arc length)`. -/
noncomputable def toArcGo (p : Pt) : List Pt → ℝ → Option (ℝ × ℝ) → ℝ
  | a :: b :: rest, cum, best =>
    let t := max 0 (min 1 (dotp (vsub p a) (vsub b a) / dotp (vsub b a) (vsub b a)))
    let c : Pt := (a.1 + t * (b.1 - a.1), a.2 + t * (b.2 - a.2))
    let d := Real.sqrt ((p.1 - c.1) ^ 2 + (p.2 - c.2) ^ 2)
    let arc := cum + t * segLen a b
    match best with
    | none => toArcGo p (b :: rest) (cum + segLen a b) (some (d, arc))
    | some (bestD, bestArc) =>
      if d < bestD then toArcGo p (b :: rest) (cum + segLen a b) (some (d, arc))
      else toArcGo p (b :: rest) (cum + segLen a b) (some (bestD, bestArc))
  | _, _, best =>
    match best with
    | none => 0
    | some (_, arc) => arc

/-- The `.length` component of `lanelet::geometry::toArcCoordinates`. -/
noncomputable def toArcCoordinatesLength (ls : List Pt) (p : Pt) : ℝ :=
  toArcGo p ls 0 none

/-- A lanelet as consumed by the arc-length projections: its 2-D
centerline and bounds. -/
structure Lanelet where
  centerline : List Pt
  leftBound : List Pt
  rightBound : List Pt

/-- The lanelet walk of `get_arc_length_on_bounds` (utils.cpp lines
558-584): accumulate full lengths while the lanelet ends before
`s_centerline`, project inside the lanelet containing it, and fall
through to `(s_centerline, s_centerline)` when the sequence is too
short. -/
noncomputable def gaobGo (s_centerline : ℝ) :
    List Lanelet → ℝ → ℝ → ℝ → ℝ × ℝ
  | [], _, _, _ => (s_centerline, s_centerline)
  | l :: rest, s, s_left, s_right =>
    let centerline_length := polyLength l.centerline
    let left_bound_length := polyLength l.leftBound
    let right_bound_length := polyLength l.rightBound
    if s + centerline_length < s_centerline then
      gaobGo s_centerline rest (s + centerline_length) (s_left + left_bound_length)
        (s_right + right_bound_length)
    else
      let point_on_centerline := interpolatedPointAtDistance l.centerline (s_centerline - s)
      (s_left + toArcCoordinatesLength l.leftBound point_on_centerline,
        s_right + toArcCoordinatesLength l.rightBound point_on_centerline)

/-- `autoware::path_generator::utils::get_arc_length_on_bounds`. -/
noncomputable def get_arc_length_on_bounds (lanelet_sequence : List Lanelet)
    (s_centerline : ℝ) : ℝ × ℝ :=
  if s_centerline < 0 then (0, 0) else gaobGo s_centerline lanelet_sequence 0 0 0

/-- The lanelet walk of `get_arc_length_on_centerline` (utils.cpp lines
611-639), with the `is_left_done`/`is_right_done` early break and the
per-side projection guarded by `s_left + left_bound_length >
s_left_bound`. -/
noncomputable def gaocGo (s_left_bound s_right_bound : Option ℝ) :
    List Lanelet → ℝ → ℝ → ℝ → Option ℝ → Option ℝ → Option ℝ × Option ℝ
  | [], _, _, _, sLC, sRC => (sLC, sRC)
  | l :: rest, s, s_left, s_right, sLC, sRC =>
    if (s_left_bound.isNone || sLC.isSome) && (s_right_bound.isNone || sRC.isSome) then
      (sLC, sRC)
    else
      let centerline_length := polyLength l.centerline
      let left_bound_length := polyLength l.leftBound
      let right_bound_length := polyLength l.rightBound
      let sLC' : Option ℝ :=
        match s_left_bound, sLC with
        | some slb, none =>
          if s_left + left_bound_length > slb then
            some (s + toArcCoordinatesLength l.centerline
              (interpolatedPointAtDistance l.leftBound (slb - s_left)))
          else none
        | _, _ => sLC
      let sRC' : Option ℝ :=
        match s_right_bound, sRC with
        | some srb, none =>
          if s_right + right_bound_length > srb then
            some (s + toArcCoordinatesLength l.centerline
              (interpolatedPointAtDistance l.rightBound (srb - s_right)))
          else none
        | _, _ => sRC
      gaocGo s_left_bound s_right_bound rest (s + centerline_length)
        (s_left + left_bound_length) (s_right + right_bound_length) sLC' sRC'

/-- `autoware::path_generator::utils::get_arc_length_on_centerline`. -/
noncomputable def get_arc_length_on_centerline (lanelet_sequence : List Lanelet)
    (s_left_bound s_right_bound : Option ℝ) : Option ℝ × Option ℝ :=
  let s_left_init : Option ℝ :=
    match s_left_bound with
    | some v => if v < 0 then some 0 else none
    | none => none
  let s_right_init : Option ℝ :=
    match s_right_bound with
    | some v => if v < 0 then some 0 else none
    | none => none
  let r := gaocGo s_left_bound s_right_bound lanelet_sequence 0 0 0 s_left_init s_right_init
  (r.1.orElse (fun _ => s_left_bound), r.2.orElse (fun _ => s_right_bound))

/-- `autoware::path_generator::utils::crop_line_string` (utils.cpp lines
518-546).  The trajectory building, cropping and restoring of the happy
path is a black-box trajectory primitive and enters as `impl` (`none`
models a failed `Builder::build`, which the source maps to an empty
result). -/
noncomputable def crop_line_string {P : Type} (impl : List P → ℝ → ℝ → Option (List P))
    (line_string : List P) (s_start s_end : ℝ) : List P :=
  if s_start < 0 then line_string
  else if s_start > s_end then line_string
  else
    match impl line_string s_start s_end with
    | none => []
    | some r => r

/-- Total centerline length of a lanelet sequence. -/
noncomputable def totalCenterlineLength (seq : List Lanelet) : ℝ :=
  (seq.map (fun l => polyLength l.centerline)).sum

/-- Total left-bound length of a lanelet sequence. -/
noncomputable def totalLeftBoundLength (seq : List Lanelet) : ℝ :=
  (seq.map (fun l => polyLength l.leftBound)).sum

/-- A lanelet whose left bound runs diagonally away from the straight
centerline: projections between the two parameterizations stretch arc
lengths far apart. -/
def cexL1 : Lanelet :=
  ⟨[((0:ℝ), (0:ℝ)), (10, 0)], [(0, 1), (6, 9)], [(0, -1), (10, -1)]⟩

/-- A one-lanelet sequence with the diagonal left bound. -/
def cexSeq1 : List Lanelet := [cexL1]

/-- A lanelet whose left bound folds back over itself, so that the
closest left-bound point moves backwards as the centerline arc length
advances. -/
def cexL2 : Lanelet :=
  ⟨[((0:ℝ), (0:ℝ)), (10, 0)], [(0, 2), (10, 2), (10, 1), (0, 1)], [(0, -1), (10, -1)]⟩

/-- A one-lanelet sequence with the folded left bound. -/
def cexSeq2 : List Lanelet := [cexL2]

end PathGen

namespace AutowareStop

/-! ## Supporting lemmas -/

/-- `rclamp` always lands in `[lo, hi]` when `lo ≤ hi`. -/
theorem rclamp_mem (v lo hi : ℚ) (h : lo ≤ hi) :
    lo ≤ rclamp v lo hi ∧ rclamp v lo hi ≤ hi := by
  unfold rclamp
  split
  · exact ⟨le_refl lo, h⟩
  · split
    · exact ⟨h, le_refl hi⟩
    · constructor
      · linarith [not_lt.mp (by assumption : ¬ v < lo)]
      · linarith [not_lt.mp (by assumption : ¬ hi < v)]

/-- The clamped estimation time always lands in `[lo, hi]` when `lo ≤ hi`
(the infinite case clamps to `hi`). -/
theorem clampEstimationTime_mem (v : Option ℚ) (lo hi : ℚ) (h : lo ≤ hi) :
    lo ≤ clampEstimationTime v lo hi ∧ clampEstimationTime v lo hi ≤ hi := by
  cases v with
  | none => exact ⟨h, le_refl hi⟩
  | some x => exact rclamp_mem x lo hi h

/-- A non-positive deceleration falls into the epsilon guard and yields
the infinite sentinel. -/
theorem equivalent_estimation_time_nonpos (speed decel : ℚ) (h : decel ≤ 0) :
    equivalent_estimation_time speed decel = none := by
  unfold equivalent_estimation_time
  rw [if_pos]
  calc decel ≤ 0 := h
    _ ≤ dblEps := by norm_num [dblEps]

/-- C10: an object whose first classification label is not an outside
stop type gets estimation time exactly 0; pedestrians and bicycles in
the outside set get a time clamped into `[0, horizon]`; a non-positive
configured deceleration yields the full horizon (no division error). -/
theorem calc_estimation_time_spec (p : ObstacleFilteringParam) (lbl : Nat)
    (rest : List Nat) (speed : ℚ)
    (hhor : 0 ≤ p.outside_estimation_time_horizon) :
    (lbl ∉ p.outside_stop_object_types →
      calc_estimation_time (lbl :: rest) speed p = Except.ok 0) ∧
    ((lbl = PEDESTRIAN ∨ lbl = BICYCLE) → lbl ∈ p.outside_stop_object_types →
      ∃ t, calc_estimation_time (lbl :: rest) speed p = Except.ok t ∧
        0 ≤ t ∧ t ≤ p.outside_estimation_time_horizon) ∧
    (lbl = PEDESTRIAN → lbl ∈ p.outside_stop_object_types →
      p.outside_pedestrian_deceleration ≤ 0 →
      calc_estimation_time (lbl :: rest) speed p =
        Except.ok p.outside_estimation_time_horizon) ∧
    (lbl = BICYCLE → lbl ∈ p.outside_stop_object_types →
      p.outside_bicycle_deceleration ≤ 0 →
      calc_estimation_time (lbl :: rest) speed p =
        Except.ok p.outside_estimation_time_horizon) := by
  refine ⟨?_, ?_, ?_, ?_⟩
  · intro h
    simp only [calc_estimation_time, List.head?]
    rw [if_pos h]
  · rintro (rfl | rfl) hmem
    · simp only [calc_estimation_time, List.head?]
      rw [if_neg (fun hc => hc hmem), if_pos trivial]
      exact ⟨_, rfl, clampEstimationTime_mem _ 0 _ hhor⟩
    · simp only [calc_estimation_time, List.head?]
      rw [if_neg (fun hc => hc hmem), if_neg (by decide), if_pos trivial]
      exact ⟨_, rfl, clampEstimationTime_mem _ 0 _ hhor⟩
  · rintro rfl hmem hdec
    simp only [calc_estimation_time, List.head?]
    rw [if_neg (fun hc => hc hmem), if_pos trivial,
      equivalent_estimation_time_nonpos speed _ hdec]
    rfl
  · rintro rfl hmem hdec
    simp only [calc_estimation_time, List.head?]
    rw [if_neg (fun hc => hc hmem), if_neg (by decide), if_pos trivial,
      equivalent_estimation_time_nonpos speed _ hdec]
    rfl

/-- C10 witness: concrete evaluation of the three regimes. -/
theorem calc_estimation_time_spec_witness :
    (0 : ℚ) ≤ cexOFP.outside_estimation_time_horizon ∧
    calc_estimation_time [CAR] 5 cexOFP = Except.ok 0 ∧
    (∃ t, calc_estimation_time [BICYCLE] 5 cexOFP = Except.ok t ∧
      0 ≤ t ∧ t ≤ cexOFP.outside_estimation_time_horizon) ∧
    calc_estimation_time [PEDESTRIAN] 5 cexOFP =
      Except.ok cexOFP.outside_estimation_time_horizon := by
  refine ⟨by norm_num [cexOFP], ?_, ?_, ?_⟩
  · exact (calc_estimation_time_spec cexOFP CAR [] 5 (by norm_num [cexOFP])).1
      (by decide)
  · exact (calc_estimation_time_spec cexOFP BICYCLE [] 5 (by norm_num [cexOFP])).2.1
      (Or.inr rfl) (by decide)
  · exact (calc_estimation_time_spec cexOFP PEDESTRIAN [] 5
      (by norm_num [cexOFP])).2.2.1 rfl (by decide) (by norm_num [cexOFP])

end AutowareStop

namespace AutowareStop

/-- C9 counterexample: a per-cycle operation of the module does raise an
error on a degenerate but well-typed input — `calc_estimation_time`
reads `classification.at(0)`, which throws `std::out_of_range` for an
object whose classification list is empty. -/
theorem calc_estimation_time_empty_classification_error :
    calc_estimation_time [] 5 cexOFP =
      Except.error "vector::at: classification index 0 out of range" := rfl

/-- C9 amended: the startup check of `init` raises a fatal configuration
error exactly when the point-cloud mask lateral margin is strictly
smaller than the maximum lateral stop margin, while
`calc_estimation_time` raises no error whenever the classification list
is non-empty. -/
theorem init_config_check_spec (mask maxlat : ℚ) (p : ObstacleFilteringParam)
    (speed : ℚ) :
    ((∃ msg, init_config_check mask maxlat = Except.error msg) ↔ mask < maxlat) ∧
    (∀ lbl rest, ∃ t, calc_estimation_time (lbl :: rest) speed p = Except.ok t) := by
  constructor
  · constructor
    · rintro ⟨msg, hmsg⟩
      by_contra hlt
      rw [init_config_check, if_neg hlt] at hmsg
      exact Except.noConfusion hmsg
    · intro hlt
      exact ⟨_, by rw [init_config_check, if_pos hlt]⟩
  · intro lbl rest
    simp only [calc_estimation_time, List.head?]
    split
    · exact ⟨_, rfl⟩
    · split
      · exact ⟨_, rfl⟩
      · split
        · exact ⟨_, rfl⟩
        · exact ⟨_, rfl⟩

/-- C9 amended witness: the configuration check at a concrete
inconsistent configuration, and a concrete non-empty classification. -/
theorem init_config_check_spec_witness :
    ((∃ msg, init_config_check 1 2 = Except.error msg) ↔ (1:ℚ) < 2) ∧
    (∃ t, calc_estimation_time [CAR] 0 cexOFP = Except.ok t) :=
  ⟨(init_config_check_spec 1 2 cexOFP 0).1, (init_config_check_spec 1 2 cexOFP 0).2 CAR []⟩

/-- C4: with a previous-cycle record of a fixed (no-braking-distance)
stop the function returns true iff the relative velocity does not exceed
the exit threshold; without such a record it returns true iff the
relative velocity is strictly below the enter threshold; and once the
classification is off, velocities never below the enter threshold can
never switch it back on (no toggling). -/
theorem fixed_stop_hysteresis (prev : List StopObstacle) (uuid : Nat) (v : ℚ)
    (sp : StopPlanningParam) :
    (∀ o, get_obstacle_from_uuid prev uuid = some o → o.braking_dist = none →
      (is_obstacle_velocity_requiring_fixed_stop prev uuid v sp = true ↔
        v ≤ sp.obstacle_velocity_threshold_exit_fixed_stop)) ∧
    ((get_obstacle_from_uuid prev uuid = none ∨
        ∃ o b, get_obstacle_from_uuid prev uuid = some o ∧ o.braking_dist = some b) →
      (is_obstacle_velocity_requiring_fixed_stop prev uuid v sp = true ↔
        v < sp.obstacle_velocity_threshold_enter_fixed_stop)) ∧
    (∀ w : ℚ, sp.obstacle_velocity_threshold_enter_fixed_stop ≤ w →
      fixedStopStep sp false w = false) ∧
    (∀ vs : List ℚ,
      (∀ w ∈ vs, sp.obstacle_velocity_threshold_enter_fixed_stop ≤ w) →
      fixedStopIter sp false vs = false) := by
  refine ⟨?_, ?_, ?_, ?_⟩
  · intro o ho hb
    unfold is_obstacle_velocity_requiring_fixed_stop
    rw [ho]
    rw [if_pos (by simp [hb])]
    constructor
    · intro h
      by_contra hv
      rw [if_pos (not_le.mp hv)] at h
      exact Bool.noConfusion h
    · intro h
      rw [if_neg (not_lt.mpr h)]
  · intro hcase
    unfold is_obstacle_velocity_requiring_fixed_stop
    have hnone : ¬ ((get_obstacle_from_uuid prev uuid).isSome ∧
        ((get_obstacle_from_uuid prev uuid).bind StopObstacle.braking_dist).isNone) := by
      rcases hcase with h | ⟨o, b, ho, hb⟩
      · simp [h]
      · simp [ho, hb]
    rw [if_neg hnone]
    constructor
    · intro h
      by_contra hv
      rw [if_neg hv] at h
      exact Bool.noConfusion h
    · intro h
      rw [if_pos h]
  · intro w hw
    unfold fixedStopStep
    rw [if_neg (by simp), if_neg (not_lt.mpr hw)]
  · intro vs hvs
    induction vs with
    | nil => rfl
    | cons w ws ih =>
      unfold fixedStopIter
      have hstep : fixedStopStep sp false w = false := by
        unfold fixedStopStep
        rw [if_neg (by simp), if_neg (not_lt.mpr (hvs w (List.mem_cons_self w ws)))]
      rw [hstep]
      exact ih (fun x hx => hvs x (List.mem_cons_of_mem w hx))

/-- C4 witness: a concrete previous record and velocity exercising both
characterizations and the no-toggle property. -/
theorem fixed_stop_hysteresis_witness :
    (is_obstacle_velocity_requiring_fixed_stop [⟨1, 0, CAR, 0, 10, none⟩] 1 (3/2) cexSP =
        true ↔ (3/2 : ℚ) ≤ cexSP.obstacle_velocity_threshold_exit_fixed_stop) ∧
    (is_obstacle_velocity_requiring_fixed_stop [] 1 (3/2) cexSP = true ↔
        (3/2 : ℚ) < cexSP.obstacle_velocity_threshold_enter_fixed_stop) ∧
    fixedStopIter cexSP false [3/2, 5/2, 3/2, 5/2] = false := by
  refine ⟨?_, ?_, ?_⟩
  · exact (fixed_stop_hysteresis [⟨1, 0, CAR, 0, 10, none⟩] 1 (3/2) cexSP).1
      ⟨1, 0, CAR, 0, 10, none⟩ (by decide) rfl
  · exact (fixed_stop_hysteresis [] 1 (3/2) cexSP).2.1 (Or.inl rfl)
  · exact (fixed_stop_hysteresis [] 1 0 cexSP).2.2.2 [3/2, 5/2, 3/2, 5/2]
      (by intro w hw; fin_cases hw <;> norm_num [cexSP])

end AutowareStop

namespace AutowareStop

/-- C6 counterexample: with the opposing-traffic stop margin (10) above
the plain stop margin (5), a stationary ego and an oncoming obstacle at
bumper-to-bumper distance 8 solve to a coasting time of exactly 0, yet
the computed default stop margin is 8, which exceeds the plain
configured default margin. -/
theorem default_stop_margin_exceeds_plain_margin :
    coast_time cexSP 0 (-6) 8 = 0 ∧
    default_stop_margin cexSP 0 (-6) 8 100 8 = 8 ∧
    ¬ default_stop_margin cexSP 0 (-6) 8 100 8 ≤ cexSP.stop_margin := by
  have h1 : coast_time cexSP 0 (-6) 8 = 0 := by
    simp only [coast_time, cexSP]
    norm_num [max_def, abs]
  have h2 : default_stop_margin cexSP 0 (-6) 8 100 8 = 8 := by
    simp only [default_stop_margin]
    rw [if_pos (by norm_num [cexSP]), if_neg (by norm_num), h1]
    norm_num
  refine ⟨h1, h2, ?_⟩
  rw [h2]
  norm_num [cexSP]

/-- C6 amended: in the oncoming branch with a forward-driving ego and a
non-degenerate relative velocity, a coasting time that clamps to 0
bounds the computed default stop margin by the configured
opposing-traffic stop margin (not by the plain default margin). -/
theorem default_stop_margin_opposing_bound (sp : StopPlanningParam)
    (v_ego v_obs d ref_len dref : ℚ)
    (h_obs : v_obs < sp.max_negative_velocity)
    (h_thr : sp.max_negative_velocity ≤ 0)
    (h_ego : 0 ≤ v_ego)
    (h_rel : ¬ |v_ego - v_obs| ≤ 1 / 10 ^ 6)
    (h_T : coast_time sp v_ego v_obs d = 0) :
    default_stop_margin sp v_ego v_obs d ref_len dref ≤
      sp.stop_margin_opposing_traffic := by
  have h_rel_pos : 0 < v_ego - v_obs := by linarith
  have h_num : d - sp.stop_margin_opposing_traffic -
      v_ego * v_ego / (2 * sp.effective_deceleration_opposing_traffic) +
      |v_obs * (v_ego / sp.effective_deceleration_opposing_traffic)| ≤ 0 := by
    have h_div : (d - sp.stop_margin_opposing_traffic -
        v_ego * v_ego / (2 * sp.effective_deceleration_opposing_traffic) +
        |v_obs * (v_ego / sp.effective_deceleration_opposing_traffic)|) /
        (v_ego - v_obs) ≤ 0 := by
      have := le_max_left ((d - sp.stop_margin_opposing_traffic -
        v_ego * v_ego / (2 * sp.effective_deceleration_opposing_traffic) +
        |v_obs * (v_ego / sp.effective_deceleration_opposing_traffic)|) /
        (v_ego - v_obs)) (0 : ℚ)
      rw [coast_time] at h_T
      calc _ ≤ _ := this
        _ = (0 : ℚ) := h_T
    rcases div_nonpos_iff.mp h_div with ⟨hx, hy⟩ | ⟨hx, _⟩
    · linarith
    · exact hx
  have h_abs : 0 ≤ |v_obs * (v_ego / sp.effective_deceleration_opposing_traffic)| :=
    abs_nonneg _
  unfold default_stop_margin
  rw [if_pos h_obs, if_neg h_rel, h_T]
  linarith

/-- C6 amended witness: ego at 1 m/s against a -6 m/s oncoming obstacle
at distance 5. -/
theorem default_stop_margin_opposing_bound_witness :
    (-6 : ℚ) < cexSP.max_negative_velocity ∧
    cexSP.max_negative_velocity ≤ 0 ∧
    (0 : ℚ) ≤ 1 ∧
    ¬ |(1 : ℚ) - (-6)| ≤ 1 / 10 ^ 6 ∧
    coast_time cexSP 1 (-6) 5 = 0 ∧
    default_stop_margin cexSP 1 (-6) 5 100 5 ≤ cexSP.stop_margin_opposing_traffic := by
  have hT : coast_time cexSP 1 (-6) 5 = 0 := by
    simp only [coast_time, cexSP]
    norm_num [max_def, abs]
  refine ⟨by norm_num [cexSP], by norm_num [cexSP], by norm_num, by norm_num, hT, ?_⟩
  exact default_stop_margin_opposing_bound cexSP 1 (-6) 5 100 5 (by norm_num [cexSP])
    (by norm_num [cexSP]) (by norm_num) (by norm_num) hT

/-- C7: with sudden-stop suppression on, any returned candidate stop
distance is at least the ego arc-length position plus the minimum stop
distance under the selected acceptable deceleration, and the
abandon-to-stop policy yields no candidate at all. -/
theorem calc_candidate_zero_vel_dist_spec (common : CommonParam)
    (sp : StopPlanningParam) (label : Nat)
    (v_ego ego_arc dist margin : ℚ) :
    (∀ d, calc_candidate_zero_vel_dist true common sp label
        v_ego ego_arc dist margin = some d →
      ∃ acc, acceptable_stop_acc common sp label v_ego (max 0 (dist - margin)) =
          some acc ∧
        ego_arc + calc_minimum_distance_to_stop v_ego common.limit_max_accel acc ≤ d) ∧
    (sp.param_type label ≠ "default" →
      ¬ max 0 (dist - margin) >
        min (calc_minimum_distance_to_stop v_ego common.limit_max_accel
            (sp.params_of label).sudden_object_acc_threshold)
          (sp.params_of label).sudden_object_dist_threshold →
      (sp.params_of label).abandon_to_stop = true →
      calc_candidate_zero_vel_dist true common sp label v_ego ego_arc dist margin =
        none) := by
  constructor
  · intro d hd
    unfold calc_candidate_zero_vel_dist at hd
    rw [if_pos rfl] at hd
    rcases hacc : acceptable_stop_acc common sp label v_ego (max 0 (dist - margin)) with
      _ | acc
    · rw [hacc] at hd
      exact absurd hd (by simp)
    · rw [hacc] at hd
      simp only [] at hd
      refine ⟨acc, rfl, ?_⟩
      by_cases hgt : ego_arc + calc_minimum_distance_to_stop v_ego
          common.limit_max_accel acc > max 0 (dist - margin)
      · rw [if_pos hgt] at hd
        injection hd with hd
        linarith [hd.le]
      · rw [if_neg hgt] at hd
        injection hd with hd
        rw [← hd]
        exact le_of_not_lt hgt
  · intro hpt hjudge habandon
    unfold calc_candidate_zero_vel_dist
    rw [if_pos rfl]
    have hacc : acceptable_stop_acc common sp label v_ego (max 0 (dist - margin)) =
        none := by
      unfold acceptable_stop_acc
      rw [if_neg hpt, if_neg hjudge, if_pos habandon]
    rw [hacc]

/-- C7 witness: a concrete candidate bounded by the acceptable stop
position, and a concrete abandoned obstacle. -/
theorem calc_candidate_zero_vel_dist_spec_witness :
    (∃ acc, acceptable_stop_acc ⟨1, -1⟩ cexSP CAR 2 (max 0 (100 - 5)) = some acc ∧
      (0 : ℚ) + calc_minimum_distance_to_stop 2 (1 : ℚ) acc ≤ 95) ∧
    calc_candidate_zero_vel_dist true ⟨1, -1⟩ cexSPabandon CAR 2 0 5 4 = none := by
  constructor
  · refine (calc_candidate_zero_vel_dist_spec ⟨1, -1⟩ cexSP CAR 2 0 100 5).1 95 ?_
    simp only [calc_candidate_zero_vel_dist, acceptable_stop_acc,
      calc_minimum_distance_to_stop, cexSP]
    norm_num [max_def]
  · refine (calc_candidate_zero_vel_dist_spec ⟨1, -1⟩ cexSPabandon CAR 2 0 5 4).2
      (by simp [cexSPabandon]) ?_ (by simp [cexSPabandon])
    simp only [cexSPabandon, calc_minimum_distance_to_stop]
    norm_num [max_def, min_def]

end AutowareStop

namespace AutowareStop

/-- C3 counterexample: for a determined obstacle with velocity -10, below
the large-negative threshold -4, the stop decision goes through the
path-length buffer (whose fresh entry is not yet active, so nothing is
returned) instead of being returned directly as the claim states. -/
theorem plan_stop_finalize_buffers_oncoming :
    (-10 : ℚ) < cexSP.max_negative_velocity ∧
    (plan_stop_finalize cexSP cexBuf id 0 (-10) (some 17)).1 = none ∧
    ¬ (plan_stop_finalize cexSP cexBuf id 0 (-10) (some 17)).1 = some 17 := by
  refine ⟨by norm_num [cexSP], ?_, ?_⟩ <;>
  · simp [plan_stop_finalize, update_buffer, get_nearest_active_item, cexSP, cexBuf]
    norm_num
    try exact fun h => Option.noConfusion h

/-- C3 amended: a determined obstacle at or above the large-negative
threshold returns the computed stop point directly with the buffer
untouched; one below the threshold (fast oncoming) feeds the decision
into the path-length buffer and returns the buffer's nearest active stop
point, if any. -/
theorem plan_stop_finalize_spec {P : Type} (sp : StopPlanningParam)
    (buf : PathLengthBuffer P) (lenOf : P → ℚ) (now v : ℚ) (stop_point : Option P) :
    (sp.max_negative_velocity ≤ v →
      plan_stop_finalize sp buf lenOf now v stop_point = (stop_point, buf)) ∧
    (v < sp.max_negative_velocity →
      plan_stop_finalize sp buf lenOf now v stop_point =
        (get_nearest_active_item (update_buffer buf stop_point lenOf now) lenOf now,
          update_buffer buf stop_point lenOf now)) := by
  constructor
  · intro h
    unfold plan_stop_finalize
    rw [if_pos h]
  · intro h
    unfold plan_stop_finalize
    rw [if_neg (not_le.mpr h)]

/-- C3 amended witness: both branches at concrete inputs. -/
theorem plan_stop_finalize_spec_witness :
    plan_stop_finalize cexSP cexBuf id 0 3 (some 17) = (some 17, cexBuf) ∧
    plan_stop_finalize cexSP cexBuf id 0 (-10) (some 17) =
      (get_nearest_active_item (update_buffer cexBuf (some 17) id 0) id 0,
        update_buffer cexBuf (some 17) id 0) :=
  ⟨(plan_stop_finalize_spec cexSP cexBuf id 0 3 (some 17)).1 (by norm_num [cexSP]),
    (plan_stop_finalize_spec cexSP cexBuf id 0 (-10) (some 17)).2
      (by norm_num [cexSP])⟩

/-- C2: the history-aging loop of `filter_stop_obstacle_for_point_cloud`
does not terminate on an entry that is within the hold time but outside
the lateral margin: the lateral-margin `continue` leaves the iterator in
place, so the loop state repeats forever and never reaches completion. -/
theorem pc_history_loop_nontermination :
    pc_history_step cexPcParams cexPcState = cexPcState ∧
    ∀ n, pc_history_done (pc_history_iter cexPcParams cexPcState n) = false := by
  have hstep : pc_history_step cexPcParams cexPcState = cexPcState := by
    simp only [pc_history_step, cexPcParams, cexPcState, cexEntry, List.get?]
    norm_num [abs, max_def]
  refine ⟨hstep, ?_⟩
  have hiter : ∀ n, pc_history_iter cexPcParams cexPcState n = cexPcState := by
    intro n
    induction n with
    | zero => rfl
    | succ k ih => rw [pc_history_iter, ih, hstep]
  intro n
  rw [hiter n]
  rfl

end AutowareStop

namespace AutowareStop

/-- Everything in `gcsInsert o cands` is an old candidate or `o`. -/
theorem mem_gcsInsert {o x : StopObstacle} {cands : List StopObstacle}
    (hx : x ∈ gcsInsert o cands) : x ∈ cands ∨ x = o := by
  induction cands with
  | nil =>
    simp only [gcsInsert, List.mem_singleton] at hx
    exact Or.inr hx
  | cons c rest ih =>
    by_cases hl : c.label = o.label
    · rw [gcsInsert, if_pos hl] at hx
      rcases List.mem_cons.mp hx with hx1 | hx2
      · by_cases hc : o.combinedDist < c.combinedDist
        · rw [if_pos hc] at hx1
          exact Or.inr hx1
        · rw [if_neg hc] at hx1
          exact Or.inl (by rw [hx1]; exact List.mem_cons_self c rest)
      · exact Or.inl (List.mem_cons_of_mem c hx2)
    · rw [gcsInsert, if_neg hl] at hx
      rcases List.mem_cons.mp hx with hx1 | hx2
      · exact Or.inl (by rw [hx1]; exact List.mem_cons_self c rest)
      · rcases ih hx2 with h | h
        · exact Or.inl (List.mem_cons_of_mem c h)
        · exact Or.inr h

/-- `gcsInsert` keeps candidate labels pairwise distinct. -/
theorem nodup_labels_gcsInsert {o : StopObstacle} {cands : List StopObstacle}
    (h : (cands.map (fun c => c.label)).Nodup) :
    ((gcsInsert o cands).map (fun c => c.label)).Nodup := by
  induction cands with
  | nil => simp [gcsInsert]
  | cons c rest ih =>
    by_cases hl : c.label = o.label
    · rw [gcsInsert, if_pos hl]
      have hlab : (if o.combinedDist < c.combinedDist then o else c).label = c.label := by
        split
        · exact hl.symm
        · rfl
      simp only [List.map_cons, hlab]
      simpa using h
    · rw [gcsInsert, if_neg hl]
      simp only [List.map_cons, List.nodup_cons] at h ⊢
      refine ⟨?_, ih h.2⟩
      intro hmem
      rw [List.mem_map] at hmem
      obtain ⟨y, hy, hylab⟩ := hmem
      rcases mem_gcsInsert hy with h1 | h1
      · exact h.1 (List.mem_map.mpr ⟨y, h1, hylab⟩)
      · rw [h1] at hylab
        exact hl hylab.symm

/-- An old candidate label survives `gcsInsert`. -/
theorem gcsInsert_cover_old {o : StopObstacle} {y : Nat} {cands : List StopObstacle}
    (h : ∃ e ∈ cands, e.label = y) :
    ∃ e ∈ gcsInsert o cands, e.label = y := by
  induction cands with
  | nil =>
    obtain ⟨e, he, _⟩ := h
    exact absurd he (List.not_mem_nil e)
  | cons c rest ih =>
    obtain ⟨e, he, hel⟩ := h
    by_cases hl : c.label = o.label
    · rw [gcsInsert, if_pos hl]
      rcases List.mem_cons.mp he with he1 | he2
      · refine ⟨if o.combinedDist < c.combinedDist then o else c,
          List.mem_cons_self _ _, ?_⟩
        have hcy : c.label = y := by rw [← he1]; exact hel
        split
        · rw [← hl]; exact hcy
        · exact hcy
      · exact ⟨e, List.mem_cons_of_mem _ he2, hel⟩
    · rw [gcsInsert, if_neg hl]
      rcases List.mem_cons.mp he with he1 | he2
      · exact ⟨c, List.mem_cons_self _ _, by rw [← he1]; exact hel⟩
      · obtain ⟨e', he', hel'⟩ := ih ⟨e, he2, hel⟩
        exact ⟨e', List.mem_cons_of_mem c he', hel'⟩

/-- The inserted obstacle's label is present after `gcsInsert`. -/
theorem gcsInsert_cover_new (o : StopObstacle) (cands : List StopObstacle) :
    ∃ e ∈ gcsInsert o cands, e.label = o.label := by
  induction cands with
  | nil => exact ⟨o, by simp [gcsInsert], rfl⟩
  | cons c rest ih =>
    by_cases hl : c.label = o.label
    · rw [gcsInsert, if_pos hl]
      refine ⟨_, List.mem_cons_self _ _, ?_⟩
      split
      · rfl
      · exact hl
    · rw [gcsInsert, if_neg hl]
      obtain ⟨e, he, hel⟩ := ih
      exact ⟨e, List.mem_cons_of_mem c he, hel⟩

/-- Inserting `o` keeps every candidate minimal over the processed
obstacles extended with `o`. -/
theorem gcsInsert_minFor {o : StopObstacle} {cands processed : List StopObstacle}
    (hnodup : (cands.map (fun c => c.label)).Nodup)
    (hmin : ∀ e ∈ cands, minCombinedFor e processed)
    (hcov : ∀ q ∈ processed, q.label = o.label → ∃ e ∈ cands, e.label = o.label) :
    ∀ x ∈ gcsInsert o cands, minCombinedFor x (processed ++ [o]) := by
  induction cands with
  | nil =>
    intro x hx
    simp only [gcsInsert, List.mem_singleton] at hx
    subst hx
    intro q hq hql
    rcases List.mem_append.mp hq with hq1 | hq2
    · obtain ⟨e, he, _⟩ := hcov q hq1 hql
      exact absurd he (List.not_mem_nil e)
    · rw [List.mem_singleton] at hq2
      rw [hq2]
  | cons c rest ih =>
    intro x hx
    by_cases hl : c.label = o.label
    · rw [gcsInsert, if_pos hl] at hx
      rcases List.mem_cons.mp hx with hx1 | hx2
      · by_cases hc : o.combinedDist < c.combinedDist
        · rw [if_pos hc] at hx1
          intro q hq hql
          rw [hx1]
          rw [hx1] at hql
          rcases List.mem_append.mp hq with hq1 | hq2
          · have hqc : q.label = c.label := by rw [hql, ← hl]
            exact le_of_lt (lt_of_lt_of_le hc
              (hmin c (List.mem_cons_self c rest) q hq1 hqc))
          · rw [List.mem_singleton] at hq2
            rw [hq2]
        · rw [if_neg hc] at hx1
          intro q hq hql
          rw [hx1]
          rw [hx1] at hql
          rcases List.mem_append.mp hq with hq1 | hq2
          · exact hmin c (List.mem_cons_self c rest) q hq1 hql
          · rw [List.mem_singleton] at hq2
            rw [hq2]
            exact le_of_not_lt hc
      · intro q hq hql
        rcases List.mem_append.mp hq with hq1 | hq2
        · exact hmin x (List.mem_cons_of_mem c hx2) q hq1 hql
        · rw [List.mem_singleton] at hq2
          subst hq2
          exfalso
          have hxl : x.label ∈ rest.map (fun c => c.label) :=
            List.mem_map.mpr ⟨x, hx2, rfl⟩
          simp only [List.map_cons, List.nodup_cons] at hnodup
          apply hnodup.1
          rw [hl, hql]
          exact hxl
    · rw [gcsInsert, if_neg hl] at hx
      rcases List.mem_cons.mp hx with hx1 | hx2
      · subst hx1
        intro q hq hql
        rcases List.mem_append.mp hq with hq1 | hq2
        · exact hmin x (List.mem_cons_self x rest) q hq1 hql
        · rw [List.mem_singleton] at hq2
          subst hq2
          exact absurd hql.symm hl
      · have hnodup' : (rest.map (fun c => c.label)).Nodup := by
          simp only [List.map_cons, List.nodup_cons] at hnodup
          exact hnodup.2
        have hmin' : ∀ e ∈ rest, minCombinedFor e processed :=
          fun e he => hmin e (List.mem_cons_of_mem c he)
        have hcov' : ∀ q ∈ processed, q.label = o.label →
            ∃ e ∈ rest, e.label = o.label := by
          intro q hq hql
          obtain ⟨e, he, hel⟩ := hcov q hq hql
          rcases List.mem_cons.mp he with he1 | he2
          · rw [he1] at hel
            exact absurd hel hl
          · exact ⟨e, he2, hel⟩
        exact ih hnodup' hmin' hcov' x hx2

/-- Fold invariant of `get_closest_stop_obstacles`: every final candidate
is minimal, by combined distance, among the same-label obstacles seen. -/
theorem foldl_gcs_invariant (obs : List StopObstacle) :
    ∀ cands processed,
      (cands.map (fun c => c.label)).Nodup →
      (∀ e ∈ cands, minCombinedFor e processed) →
      (∀ q ∈ processed, ∃ e ∈ cands, e.label = q.label) →
      ∀ e ∈ obs.foldl (fun cs o => gcsInsert o cs) cands,
        minCombinedFor e (processed ++ obs) := by
  induction obs with
  | nil =>
    intro cands processed _ hmin _
    simpa using hmin
  | cons o rest ih =>
    intro cands processed hnd hmin hcov
    simp only [List.foldl_cons]
    have h1 : ∀ x ∈ gcsInsert o cands, minCombinedFor x (processed ++ [o]) :=
      gcsInsert_minFor hnd hmin (fun q hq hql => by
        obtain ⟨e, he, hel⟩ := hcov q hq
        exact ⟨e, he, by rw [hel, hql]⟩)
    have hnd' := nodup_labels_gcsInsert (o := o) hnd
    have hcov' : ∀ q ∈ processed ++ [o],
        ∃ e ∈ gcsInsert o cands, e.label = q.label := by
      intro q hq
      rcases List.mem_append.mp hq with hq1 | hq2
      · exact gcsInsert_cover_old (hcov q hq1)
      · rw [List.mem_singleton] at hq2
        rw [hq2]
        exact gcsInsert_cover_new o cands
    have hres := ih (gcsInsert o cands) (processed ++ [o]) hnd' h1 hcov'
    intro e he
    have := hres e he
    simpa [List.append_assoc] using this

/-- Every obstacle kept by `get_closest_stop_obstacles` has minimal
combined distance among the input obstacles sharing its label. -/
theorem get_closest_minFor (obs : List StopObstacle) :
    ∀ e ∈ get_closest_stop_obstacles obs, minCombinedFor e obs := by
  have h := foldl_gcs_invariant obs [] [] (by simp) (by simp [minCombinedFor])
    (by simp)
  intro e he
  have := h e (by simpa [get_closest_stop_obstacles] using he)
  simpa using this

/-- The determined obstacle of the selection loop comes from the
candidate list or from the initial accumulator. -/
theorem plan_stop_loop_mem (czvd : StopObstacle → Option ℚ)
    (mf : StopObstacle → ℚ) :
    ∀ (l : List StopObstacle) (det : Option (ℚ × StopObstacle × ℚ)) (c : ℚ)
      (o : StopObstacle) (m : ℚ),
      plan_stop_loop czvd mf l det = some (c, o, m) →
      o ∈ l ∨ ∃ c' m', det = some (c', o, m') := by
  intro l
  induction l with
  | nil =>
    intro det c o m h
    simp only [plan_stop_loop] at h
    exact Or.inr ⟨c, m, h⟩
  | cons o' rest ih =>
    intro det c o m h
    cases hcz : czvd o' with
    | none =>
      simp only [plan_stop_loop, hcz] at h
      rcases ih det c o m h with h1 | h1
      · exact Or.inl (List.mem_cons_of_mem o' h1)
      · exact Or.inr h1
    | some cv =>
      cases det with
      | none =>
        simp only [plan_stop_loop, hcz] at h
        rcases ih _ c o m h with h1 | h1
        · exact Or.inl (List.mem_cons_of_mem o' h1)
        · obtain ⟨c', m', he⟩ := h1
          have ho : o' = o := congrArg (fun t => t.2.1) (Option.some.inj he)
          exact Or.inl (by rw [← ho]; exact List.mem_cons_self o' rest)
      | some trip =>
        obtain ⟨cD, oD, mD⟩ := trip
        simp only [plan_stop_loop, hcz] at h
        split at h
        · rcases ih _ c o m h with h1 | h1
          · exact Or.inl (List.mem_cons_of_mem o' h1)
          · exact Or.inr h1
        · rcases ih _ c o m h with h1 | h1
          · exact Or.inl (List.mem_cons_of_mem o' h1)
          · obtain ⟨c', m', he⟩ := h1
            have ho : o' = o := congrArg (fun t => t.2.1) (Option.some.inj he)
            exact Or.inl (by rw [← ho]; exact List.mem_cons_self o' rest)

/-- C1: whenever `plan_stop`'s selection determines a stop obstacle, that
obstacle has the smallest combined distance-to-collision + braking
distance (0 when absent) among all same-label candidates of the input:
a same-label candidate with a strictly larger combined distance is never
the determined stop obstacle. -/
theorem plan_stop_selected_min_combined (czvd : StopObstacle → Option ℚ)
    (mf : StopObstacle → ℚ) (obs : List StopObstacle) (c : ℚ)
    (det : StopObstacle) (m : ℚ)
    (h : plan_stop_select czvd mf obs = some (c, det, m)) :
    ∀ o ∈ obs, o.label = det.label → det.combinedDist ≤ o.combinedDist := by
  have hmem : det ∈ get_closest_stop_obstacles obs := by
    rcases plan_stop_loop_mem czvd mf (get_closest_stop_obstacles obs) none c det m h
      with h1 | ⟨c', m', he⟩
    · exact h1
    · exact absurd he (by simp)
  intro o ho hol
  exact get_closest_minFor obs det hmem o ho hol

/-- C1 witness: between two same-label candidates the selection settles
on the one with the smaller combined distance. -/
theorem plan_stop_selected_min_combined_witness :
    plan_stop_select cexCzvd cexMarginOf [cexObsA, cexObsB] = some (10, cexObsA, 0) ∧
    cexObsA.combinedDist ≤ cexObsB.combinedDist := by
  have hsel : plan_stop_select cexCzvd cexMarginOf [cexObsA, cexObsB] =
      some (10, cexObsA, 0) := by
    simp only [plan_stop_select, get_closest_stop_obstacles, List.foldl_cons,
      List.foldl_nil, gcsInsert, plan_stop_loop, cexObsA, cexObsB, cexCzvd,
      cexMarginOf, StopObstacle.combinedDist]
    norm_num
  exact ⟨hsel, plan_stop_selected_min_combined cexCzvd cexMarginOf
    [cexObsA, cexObsB] 10 cexObsA 0 hsel cexObsB (by decide) rfl⟩

end AutowareStop

namespace PathGen

/-- C8: for crop bounds with `s_start > s_end`, `crop_line_string`
returns the input line string unchanged, for every implementation of the
underlying trajectory crop. -/
theorem crop_line_string_degenerate {P : Type}
    (impl : List P → ℝ → ℝ → Option (List P)) (ls : List P)
    (s_start s_end : ℝ) (h : s_start > s_end) :
    crop_line_string impl ls s_start s_end = ls := by
  unfold crop_line_string
  by_cases h0 : s_start < 0
  · rw [if_pos h0]
  · rw [if_neg h0, if_pos h]

/-- C8 witness: a concrete inverted crop range on a concrete line
string with an implementation that would otherwise empty it. -/
theorem crop_line_string_degenerate_witness :
    (1 : ℝ) > 0 ∧
    crop_line_string (fun (_ : List Nat) _ _ => none) [7] 1 0 = [7] :=
  ⟨by norm_num, crop_line_string_degenerate (fun _ _ _ => none) [7] 1 0 (by norm_num)⟩

end PathGen

namespace PathGen

/-- Evaluate a square root at a perfect square. -/
theorem sqrt_sq_eval {x r : ℝ} (hr : 0 ≤ r) (h : x = r ^ 2) : Real.sqrt x = r := by
  rw [h, Real.sqrt_sq hr]

/-- Evaluate a segment length from a Pythagorean identity. -/
theorem segLen_eval {x1 y1 x2 y2 r : ℝ} (hr : 0 ≤ r)
    (h : (x2 - x1) ^ 2 + (y2 - y1) ^ 2 = r ^ 2) :
    segLen (x1, y1) (x2, y2) = r := by
  unfold segLen
  exact sqrt_sq_eval hr h

/-- A two-point polyline has the length of its only segment. -/
theorem polyLength_pair (a b : Pt) : polyLength [a, b] = segLen a b := by
  simp [polyLength]

/-- Polyline lengths are non-negative. -/
theorem polyLength_nonneg (ls : List Pt) : 0 ≤ polyLength ls := by
  induction ls with
  | nil => simp [polyLength]
  | cons a tail ih =>
    cases tail with
    | nil => simp [polyLength]
    | cons b rest =>
      simp only [polyLength]
      exact add_nonneg (Real.sqrt_nonneg _) ih

/-- Total centerline length is non-negative. -/
theorem totalCenterlineLength_nonneg (seq : List Lanelet) :
    0 ≤ totalCenterlineLength seq := by
  unfold totalCenterlineLength
  refine List.sum_nonneg ?_
  intro x hx
  rw [List.mem_map] at hx
  obtain ⟨l, _, hl⟩ := hx
  rw [← hl]
  exact polyLength_nonneg _

/-- Total left-bound length is non-negative. -/
theorem totalLeftBoundLength_nonneg (seq : List Lanelet) :
    0 ≤ totalLeftBoundLength seq := by
  unfold totalLeftBoundLength
  refine List.sum_nonneg ?_
  intro x hx
  rw [List.mem_map] at hx
  obtain ⟨l, _, hl⟩ := hx
  rw [← hl]
  exact polyLength_nonneg _

/-- `toArcCoordinates` on a single-segment polyline: clamped projection
parameter times segment length. -/
theorem toArcLen_single (a b p : Pt) :
    toArcCoordinatesLength [a, b] p =
      max 0 (min 1 (dotp (vsub p a) (vsub b a) / dotp (vsub b a) (vsub b a))) *
        segLen a b := by
  simp [toArcCoordinatesLength, toArcGo]

/-- `interpolatedPointAtDistance` inside a single segment. -/
theorem ipad_single (a b : Pt) (d : ℝ) (h0 : ¬ d < 0) (h1 : d ≤ segLen a b) :
    interpolatedPointAtDistance [a, b] d =
      (a.1 + d / segLen a b * (b.1 - a.1), a.2 + d / segLen a b * (b.2 - a.2)) := by
  unfold interpolatedPointAtDistance
  rw [if_neg h0]
  unfold ipadGo
  rw [if_pos h1]

/-- The lanelet walk of `get_arc_length_on_bounds` falls through to the
pass-through pair when the accumulated centerline ends before `s`. -/
theorem gaobGo_passthrough (s : ℝ) :
    ∀ (seq : List Lanelet) (s0 sl sr : ℝ),
      s0 + totalCenterlineLength seq < s → gaobGo s seq s0 sl sr = (s, s) := by
  intro seq
  induction seq with
  | nil => intro s0 sl sr _; simp [gaobGo]
  | cons l rest ih =>
    intro s0 sl sr h
    have htot : totalCenterlineLength (l :: rest) =
        polyLength l.centerline + totalCenterlineLength rest := by
      simp [totalCenterlineLength]
    rw [htot] at h
    have hrest : 0 ≤ totalCenterlineLength rest := totalCenterlineLength_nonneg rest
    have hlt : s0 + polyLength l.centerline < s := by linarith
    simp only [gaobGo]
    rw [if_pos hlt]
    exact ih _ _ _ (by linarith)

/-- The lanelet walk of `get_arc_length_on_centerline` never projects a
left-bound arc length that the whole sequence's left bound cannot
reach. -/
theorem gaocGo_overrun (s : ℝ) :
    ∀ (seq : List Lanelet) (s0 sl sr : ℝ),
      sl + totalLeftBoundLength seq ≤ s →
      gaocGo (some s) none seq s0 sl sr none none = (none, none) := by
  intro seq
  induction seq with
  | nil => intro s0 sl sr _; simp [gaocGo]
  | cons l rest ih =>
    intro s0 sl sr h
    have htot : totalLeftBoundLength (l :: rest) =
        polyLength l.leftBound + totalLeftBoundLength rest := by
      simp [totalLeftBoundLength]
    rw [htot] at h
    have hrest : 0 ≤ totalLeftBoundLength rest := totalLeftBoundLength_nonneg rest
    have hle : ¬ sl + polyLength l.leftBound > s := by
      rw [not_lt]
      linarith
    simp only [gaocGo, Option.isNone_some, Option.isSome_none, Bool.false_or,
      Option.isNone_none, Bool.true_or, Bool.false_and, Bool.false_eq_true,
      if_false]
    rw [if_neg hle]
    exact ih _ _ _ (by linarith)

/-- C5 amended: in the overrun regime — `s` beyond the total centerline
length and at least the total left-bound length — both projections pass
the arc length through unchanged, so the round trip through
`get_arc_length_on_bounds` and `get_arc_length_on_centerline` is exact
(the in-range round trip carries no epsilon guarantee, see the
counterexample). -/
theorem arc_length_roundtrip_passthrough (seq : List Lanelet) (s : ℝ)
    (h1 : totalCenterlineLength seq < s) (h2 : totalLeftBoundLength seq ≤ s) :
    (get_arc_length_on_bounds seq s).1 = s ∧
    (get_arc_length_on_centerline seq
        (some ((get_arc_length_on_bounds seq s).1)) none).1 = some s := by
  have hs0 : 0 ≤ s := le_of_lt (lt_of_le_of_lt (totalCenterlineLength_nonneg seq) h1)
  have hb : get_arc_length_on_bounds seq s = (s, s) := by
    unfold get_arc_length_on_bounds
    rw [if_neg (not_lt.mpr hs0)]
    exact gaobGo_passthrough s seq 0 0 0 (by simpa using h1)
  refine ⟨by rw [hb], ?_⟩
  rw [hb]
  show (get_arc_length_on_centerline seq (some s) none).1 = some s
  unfold get_arc_length_on_centerline
  simp only [if_neg (not_lt.mpr hs0)]
  rw [gaocGo_overrun s seq 0 0 0 (by simpa using h2)]
  rfl

end PathGen

namespace PathGen

/-- One projection step of `toArcCoordinates` with no best candidate yet. -/
theorem toArcGo_cons_none (p a b : Pt) (rest : List Pt) (cum : ℝ) :
    toArcGo p (a :: b :: rest) cum none =
      toArcGo p (b :: rest) (cum + segLen a b)
        (some (Real.sqrt
            ((p.1 - (a.1 + max 0 (min 1 (dotp (vsub p a) (vsub b a) /
                dotp (vsub b a) (vsub b a))) * (b.1 - a.1))) ^ 2 +
              (p.2 - (a.2 + max 0 (min 1 (dotp (vsub p a) (vsub b a) /
                dotp (vsub b a) (vsub b a))) * (b.2 - a.2))) ^ 2),
          cum + max 0 (min 1 (dotp (vsub p a) (vsub b a) /
            dotp (vsub b a) (vsub b a))) * segLen a b)) := rfl

/-- One projection step of `toArcCoordinates` against the best so far. -/
theorem toArcGo_cons_some (p a b : Pt) (rest : List Pt) (cum bd ba : ℝ) :
    toArcGo p (a :: b :: rest) cum (some (bd, ba)) =
      (if Real.sqrt
            ((p.1 - (a.1 + max 0 (min 1 (dotp (vsub p a) (vsub b a) /
                dotp (vsub b a) (vsub b a))) * (b.1 - a.1))) ^ 2 +
              (p.2 - (a.2 + max 0 (min 1 (dotp (vsub p a) (vsub b a) /
                dotp (vsub b a) (vsub b a))) * (b.2 - a.2))) ^ 2) < bd then
        toArcGo p (b :: rest) (cum + segLen a b)
          (some (Real.sqrt
              ((p.1 - (a.1 + max 0 (min 1 (dotp (vsub p a) (vsub b a) /
                  dotp (vsub b a) (vsub b a))) * (b.1 - a.1))) ^ 2 +
                (p.2 - (a.2 + max 0 (min 1 (dotp (vsub p a) (vsub b a) /
                  dotp (vsub b a) (vsub b a))) * (b.2 - a.2))) ^ 2),
            cum + max 0 (min 1 (dotp (vsub p a) (vsub b a) /
              dotp (vsub b a) (vsub b a))) * segLen a b))
      else toArcGo p (b :: rest) (cum + segLen a b) (some (bd, ba))) := rfl

/-- The projection fold returns the best arc length at the last point. -/
theorem toArcGo_last_some (p q : Pt) (cum bd ba : ℝ) :
    toArcGo p [q] cum (some (bd, ba)) = ba := rfl

/-- Unfolding equation of the `get_arc_length_on_bounds` lanelet walk. -/
theorem gaobGo_cons (s : ℝ) (l : Lanelet) (rest : List Lanelet) (s0 sl sr : ℝ) :
    gaobGo s (l :: rest) s0 sl sr =
      if s0 + polyLength l.centerline < s then
        gaobGo s rest (s0 + polyLength l.centerline) (sl + polyLength l.leftBound)
          (sr + polyLength l.rightBound)
      else
        (sl + toArcCoordinatesLength l.leftBound
            (interpolatedPointAtDistance l.centerline (s - s0)),
          sr + toArcCoordinatesLength l.rightBound
            (interpolatedPointAtDistance l.centerline (s - s0))) := rfl

/-- Unfolding equation of the `get_arc_length_on_centerline` walk. -/
theorem gaocGo_cons (slb srb : Option ℝ) (l : Lanelet) (rest : List Lanelet)
    (s0 sl sr : ℝ) (sLC sRC : Option ℝ) :
    gaocGo slb srb (l :: rest) s0 sl sr sLC sRC =
      if (slb.isNone || sLC.isSome) && (srb.isNone || sRC.isSome) then (sLC, sRC)
      else
        gaocGo slb srb rest (s0 + polyLength l.centerline)
          (sl + polyLength l.leftBound) (sr + polyLength l.rightBound)
          (match slb, sLC with
            | some v, none =>
              if sl + polyLength l.leftBound > v then
                some (s0 + toArcCoordinatesLength l.centerline
                  (interpolatedPointAtDistance l.leftBound (v - sl)))
              else none
            | _, _ => sLC)
          (match srb, sRC with
            | some v, none =>
              if sr + polyLength l.rightBound > v then
                some (s0 + toArcCoordinatesLength l.centerline
                  (interpolatedPointAtDistance l.rightBound (v - sr)))
              else none
            | _, _ => sRC) := rfl

/-- The `get_arc_length_on_centerline` walk at the end of the sequence. -/
theorem gaocGo_nil (slb srb : Option ℝ) (s0 sl sr : ℝ) (sLC sRC : Option ℝ) :
    gaocGo slb srb [] s0 sl sr sLC sRC = (sLC, sRC) := rfl

/-- Projecting centerline arc length 2 of `cexSeq1` to the left bound
lands at arc length 2/5. -/
theorem cexSeq1_bounds : (get_arc_length_on_bounds cexSeq1 2).1 = 2/5 := by
  unfold get_arc_length_on_bounds
  rw [if_neg (by norm_num)]
  show (gaobGo 2 [cexL1] 0 0 0).1 = 2/5
  rw [gaobGo_cons]
  simp only [cexL1]
  rw [show polyLength [((0:ℝ),(0:ℝ)), ((10:ℝ),(0:ℝ))] = 10 from by
      rw [polyLength_pair]; exact segLen_eval (by norm_num) (by norm_num)]
  rw [if_neg (by norm_num)]
  rw [show interpolatedPointAtDistance [((0:ℝ),(0:ℝ)), ((10:ℝ),(0:ℝ))] (2 - 0) =
      ((2:ℝ), (0:ℝ)) from by
    rw [ipad_single _ _ _ (by norm_num)
      (by rw [segLen_eval (show (0:ℝ) ≤ 10 by norm_num) (by norm_num)]; norm_num)]
    rw [segLen_eval (show (0:ℝ) ≤ 10 by norm_num) (by norm_num)]
    norm_num]
  rw [show toArcCoordinatesLength [((0:ℝ),(1:ℝ)), ((6:ℝ),(9:ℝ))] ((2:ℝ), (0:ℝ)) =
      2/5 from by
    rw [toArcLen_single,
      segLen_eval (show (0:ℝ) ≤ 10 by norm_num) (by norm_num)]
    norm_num [vsub, dotp, max_def, min_def]]
  norm_num

/-- Projecting left-bound arc length 2/5 of `cexSeq1` back to the
centerline lands at arc length 6/25, not near 2. -/
theorem cexSeq1_roundtrip :
    (get_arc_length_on_centerline cexSeq1 (some (2/5)) none).1 = some (6/25) := by
  unfold get_arc_length_on_centerline
  simp only [if_neg (show ¬ (2/5 : ℝ) < 0 by norm_num), cexSeq1]
  rw [gaocGo_cons]
  simp only [cexL1, Option.isNone_some, Option.isSome_none, Bool.false_or,
    Option.isNone_none, Bool.true_or, Bool.false_and, Bool.false_eq_true, if_false]
  rw [show polyLength [((0:ℝ),(1:ℝ)), ((6:ℝ),(9:ℝ))] = 10 from by
      rw [polyLength_pair]; exact segLen_eval (by norm_num) (by norm_num)]
  rw [if_pos (by norm_num : (0:ℝ) + 10 > 2/5)]
  rw [show interpolatedPointAtDistance [((0:ℝ),(1:ℝ)), ((6:ℝ),(9:ℝ))] (2/5 - 0) =
      ((6/25:ℝ), (33/25:ℝ)) from by
    rw [ipad_single _ _ _ (by norm_num)
      (by rw [segLen_eval (show (0:ℝ) ≤ 10 by norm_num) (by norm_num)]; norm_num)]
    rw [segLen_eval (show (0:ℝ) ≤ 10 by norm_num) (by norm_num)]
    norm_num]
  rw [show toArcCoordinatesLength [((0:ℝ),(0:ℝ)), ((10:ℝ),(0:ℝ))]
      ((6/25:ℝ), (33/25:ℝ)) = 6/25 from by
    rw [toArcLen_single,
      segLen_eval (show (0:ℝ) ≤ 10 by norm_num) (by norm_num)]
    norm_num [vsub, dotp, max_def, min_def]]
  rw [gaocGo_nil]
  norm_num [Option.orElse]

/-- Projection of centerline point (2, 0) onto the folded left bound of
`cexSeq2`: the last bound segment is closest, at arc length 19. -/
theorem cexL2_arc_at_2 :
    toArcCoordinatesLength [((0:ℝ),(2:ℝ)), (10,2), (10,1), (0,1)] ((2:ℝ), (0:ℝ)) =
      19 := by
  rw [toArcCoordinatesLength, toArcGo_cons_none,
    show segLen ((0:ℝ),(2:ℝ)) ((10:ℝ),(2:ℝ)) = 10 from
      segLen_eval (by norm_num) (by norm_num)]
  norm_num [vsub, dotp, max_def, min_def]
  rw [show Real.sqrt 4 = 2 from sqrt_sq_eval (by norm_num) (by norm_num)]
  rw [toArcGo_cons_some,
    show segLen ((10:ℝ),(2:ℝ)) ((10:ℝ),(1:ℝ)) = 1 from
      segLen_eval (by norm_num) (by norm_num)]
  norm_num [vsub, dotp, max_def, min_def]
  rw [if_neg ((Real.sqrt_lt' (by norm_num)).not.mpr (by norm_num))]
  rw [toArcGo_cons_some,
    show segLen ((10:ℝ),(1:ℝ)) ((0:ℝ),(1:ℝ)) = 10 from
      segLen_eval (by norm_num) (by norm_num)]
  norm_num [vsub, dotp, max_def, min_def]
  rw [toArcGo_last_some]

/-- Projection of centerline point (5, 0) onto the folded left bound of
`cexSeq2`: arc length 16, smaller than at (2, 0). -/
theorem cexL2_arc_at_5 :
    toArcCoordinatesLength [((0:ℝ),(2:ℝ)), (10,2), (10,1), (0,1)] ((5:ℝ), (0:ℝ)) =
      16 := by
  rw [toArcCoordinatesLength, toArcGo_cons_none,
    show segLen ((0:ℝ),(2:ℝ)) ((10:ℝ),(2:ℝ)) = 10 from
      segLen_eval (by norm_num) (by norm_num)]
  norm_num [vsub, dotp, max_def, min_def]
  rw [show Real.sqrt 4 = 2 from sqrt_sq_eval (by norm_num) (by norm_num)]
  rw [toArcGo_cons_some,
    show segLen ((10:ℝ),(2:ℝ)) ((10:ℝ),(1:ℝ)) = 1 from
      segLen_eval (by norm_num) (by norm_num)]
  norm_num [vsub, dotp, max_def, min_def]
  rw [if_neg ((Real.sqrt_lt' (by norm_num)).not.mpr (by norm_num))]
  rw [toArcGo_cons_some,
    show segLen ((10:ℝ),(1:ℝ)) ((0:ℝ),(1:ℝ)) = 10 from
      segLen_eval (by norm_num) (by norm_num)]
  norm_num [vsub, dotp, max_def, min_def]
  rw [toArcGo_last_some]

/-- Left-bound arc length of `cexSeq2` at centerline arc length 2. -/
theorem cexSeq2_bounds_at_2 : (get_arc_length_on_bounds cexSeq2 2).1 = 19 := by
  unfold get_arc_length_on_bounds
  rw [if_neg (by norm_num)]
  show (gaobGo 2 [cexL2] 0 0 0).1 = 19
  rw [gaobGo_cons]
  simp only [cexL2]
  rw [show polyLength [((0:ℝ),(0:ℝ)), ((10:ℝ),(0:ℝ))] = 10 from by
      rw [polyLength_pair]; exact segLen_eval (by norm_num) (by norm_num)]
  rw [if_neg (by norm_num)]
  rw [show interpolatedPointAtDistance [((0:ℝ),(0:ℝ)), ((10:ℝ),(0:ℝ))] (2 - 0) =
      ((2:ℝ), (0:ℝ)) from by
    rw [ipad_single _ _ _ (by norm_num)
      (by rw [segLen_eval (show (0:ℝ) ≤ 10 by norm_num) (by norm_num)]; norm_num)]
    rw [segLen_eval (show (0:ℝ) ≤ 10 by norm_num) (by norm_num)]
    norm_num]
  rw [cexL2_arc_at_2]
  norm_num

/-- Left-bound arc length of `cexSeq2` at centerline arc length 5. -/
theorem cexSeq2_bounds_at_5 : (get_arc_length_on_bounds cexSeq2 5).1 = 16 := by
  unfold get_arc_length_on_bounds
  rw [if_neg (by norm_num)]
  show (gaobGo 5 [cexL2] 0 0 0).1 = 16
  rw [gaobGo_cons]
  simp only [cexL2]
  rw [show polyLength [((0:ℝ),(0:ℝ)), ((10:ℝ),(0:ℝ))] = 10 from by
      rw [polyLength_pair]; exact segLen_eval (by norm_num) (by norm_num)]
  rw [if_neg (by norm_num)]
  rw [show interpolatedPointAtDistance [((0:ℝ),(0:ℝ)), ((10:ℝ),(0:ℝ))] (5 - 0) =
      ((5:ℝ), (0:ℝ)) from by
    rw [ipad_single _ _ _ (by norm_num)
      (by rw [segLen_eval (show (0:ℝ) ≤ 10 by norm_num) (by norm_num)]; norm_num)]
    rw [segLen_eval (show (0:ℝ) ≤ 10 by norm_num) (by norm_num)]
    norm_num]
  rw [cexL2_arc_at_5]
  norm_num

/-- C5 counterexample: on the non-empty sequence `cexSeq1`, projecting
s = 2 to the left bound and back to the centerline yields 6/25 — off by
1.76, not within a small epsilon — and on `cexSeq2` the projection to
the left bound is not order-preserving (s = 2 maps to 19 while s = 5
maps to 16). -/
theorem arc_length_roundtrip_cex :
    (get_arc_length_on_centerline cexSeq1
        (some ((get_arc_length_on_bounds cexSeq1 2).1)) none).1 = some (6/25) ∧
    ¬ |(6/25 : ℝ) - 2| ≤ 1/100 ∧
    ((2:ℝ) < 5 ∧
      ¬ (get_arc_length_on_bounds cexSeq2 2).1 ≤
        (get_arc_length_on_bounds cexSeq2 5).1) := by
  refine ⟨?_, by rw [abs_of_nonpos (by norm_num)]; norm_num, by norm_num, ?_⟩
  · rw [cexSeq1_bounds]
    exact cexSeq1_roundtrip
  · rw [cexSeq2_bounds_at_2, cexSeq2_bounds_at_5]
    norm_num

/-- C5 amended witness: exact pass-through round trip at s = 100 on
`cexSeq1`, whose centerline and left bound both have length 10. -/
theorem arc_length_roundtrip_passthrough_witness :
    totalCenterlineLength cexSeq1 < 100 ∧
    totalLeftBoundLength cexSeq1 ≤ 100 ∧
    (get_arc_length_on_centerline cexSeq1
        (some ((get_arc_length_on_bounds cexSeq1 100).1)) none).1 = some 100 := by
  have h1 : totalCenterlineLength cexSeq1 < 100 := by
    simp only [totalCenterlineLength, cexSeq1, cexL1, List.map_cons, List.map_nil,
      List.sum_cons, List.sum_nil]
    rw [polyLength_pair, segLen_eval (show (0:ℝ) ≤ 10 by norm_num) (by norm_num)]
    norm_num
  have h2 : totalLeftBoundLength cexSeq1 ≤ 100 := by
    simp only [totalLeftBoundLength, cexSeq1, cexL1, List.map_cons, List.map_nil,
      List.sum_cons, List.sum_nil]
    rw [polyLength_pair, segLen_eval (show (0:ℝ) ≤ 10 by norm_num) (by norm_num)]
    norm_num
  exact ⟨h1, h2, (arc_length_roundtrip_passthrough cexSeq1 100 h1 h2).2⟩

end PathGen
